import Mathlib

/-!
Verification of the Performance Analytics & Matching Engine of the
AI-Powered Candidate Performance Analyzer.

Each Python function relevant to the checked properties is shallowly
embedded as an executable Lean definition over exact rational arithmetic;
SQL aggregates (MIN, MAX, AVG, GROUP BY) are embedded as list folds, and
pandas / Python dictionary row access is embedded as association-list
lookup where a missing key is a `KeyError` value.
-/

namespace CandidateAnalyzer

/-- Performance labels used by the rule-based classifiers
(`'Poor'`/`'Medium'`/`'High'` strings in the Python source). -/
inductive Performance where
  | Poor : Performance
  | Medium : Performance
  | High : Performance
deriving DecidableEq, Repr

open Performance

/-- `PerformanceAnalyzer.classify_performance` (ml_engine/performance_analyzer.py):
`if score < 60: 'Poor' elif score <= 80: 'Medium' else: 'High'`. -/
def classify_performance (score : ℚ) : Performance :=
  if score < 60 then Poor
  else if score ≤ 80 then Medium
  else High

/-- `categorize_performance` (process_data.py): identical thresholds,
`if score < 60: 'Poor' elif score <= 80: 'Medium' else: 'High'`. -/
def categorize_performance (score : ℚ) : Performance :=
  if score < 60 then Poor
  else if score ≤ 80 then Medium
  else High

/-- `generate_mentor_pairings` (app.py), compatibility computation:
`compatibility_score = min(100, max(50, 70 + (score_diff * 0.5)))`
with `score_diff = mentor_avg - weak_avg`. -/
def compatibility_score (mentor_avg weak_avg : ℚ) : ℚ :=
  min 100 (max 50 (70 + (mentor_avg - weak_avg) * (1/2)))

/-- The spec's formula, written as in the spec:
`clamp(70 + 0.5 × (mentor_avg − weak_avg), 50, 100)`. -/
def clamp (x lo hi : ℚ) : ℚ := min hi (max lo x)

/-- Spec-side compatibility formula, for refinement against the code. -/
def compatibility_spec (mentor_avg weak_avg : ℚ) : ℚ :=
  clamp (70 + (1/2) * (mentor_avg - weak_avg)) 50 100

/-- C6: the rule-based classifiers partition the score domain into three
disjoint, gap-free, order-preserving intervals: Poor/Low iff `s < 60`,
Medium iff `60 ≤ s ≤ 80`, High iff `s > 80`, and both source variants
(`classify_performance` and `categorize_performance`) agree. -/
theorem classification_partitions_domain (s : ℚ) :
    (classify_performance s = Poor ↔ s < 60) ∧
    (classify_performance s = Medium ↔ 60 ≤ s ∧ s ≤ 80) ∧
    (classify_performance s = High ↔ 80 < s) ∧
    categorize_performance s = classify_performance s := by
  unfold classify_performance categorize_performance
  by_cases h1 : s < 60 <;> by_cases h2 : s ≤ 80 <;>
    simp [h1, h2] <;> linarith

/-- C2: the mentor-pairing compatibility score equals
`clamp(70 + 0.5 * (mentor_avg - weak_avg), 50, 100)`, always lies in
`[50, 100]` (with `mentor_avg = 100, weak_avg = 0` giving exactly `100`),
and is monotone non-decreasing in the gap `mentor_avg - weak_avg`. -/
theorem compatibility_clamped (m w m' w' : ℚ) (h : m - w ≤ m' - w') :
    compatibility_score m w = compatibility_spec m w ∧
    50 ≤ compatibility_score m w ∧
    compatibility_score m w ≤ 100 ∧
    compatibility_score 100 0 = 100 ∧
    compatibility_score m w ≤ compatibility_score m' w' := by
  unfold compatibility_score compatibility_spec clamp
  refine ⟨by ring_nf, ?_, ?_, by norm_num, ?_⟩
  · exact le_min (by norm_num) (le_max_left _ _)
  · exact min_le_left _ _
  · exact min_le_min le_rfl (max_le_max le_rfl (by linarith))

/-- Witness for C2 at `mentor_avg = 60, weak_avg = 50` against
`mentor_avg = 100, weak_avg = 0`. -/
theorem compatibility_clamped_witness :
    compatibility_score 100 0 = 100 ∧
    compatibility_score 60 50 ≤ compatibility_score 100 0 :=
  ⟨(compatibility_clamped 60 50 100 0 (by norm_num)).2.2.2.1,
   (compatibility_clamped 60 50 100 0 (by norm_num)).2.2.2.2⟩

/-- SQL `SELECT MIN(score)` over the matching rows: `none` (SQL NULL)
when there are no rows. -/
def sqlMin : List ℚ → Option ℚ
  | [] => none
  | x :: xs => some (xs.foldl min x)

/-- SQL `SELECT MAX(score)` over the matching rows. -/
def sqlMax : List ℚ → Option ℚ
  | [] => none
  | x :: xs => some (xs.foldl max x)

/-- Row of the `improvement_tracking` table relevant to improvement. -/
structure ImprovementRecord where
  initial_score : ℚ
  final_score : ℚ
  improvement_percentage : ℚ
deriving DecidableEq, Repr

/-- `mark_course_completed` (app.py): `initial_score = MIN(score)`,
`final_score = MAX(score)` over the (student, course) rows; a record is
inserted only when both are non-NULL, with
`((final_score - initial_score) / initial_score * 100) if initial_score != 0 else 0`. -/
def mark_course_completed (scores : List ℚ) : Option ImprovementRecord :=
  match sqlMin scores, sqlMax scores with
  | some ini, some fin =>
      some ⟨ini, fin, if ini ≠ 0 then (fin - ini) / ini * 100 else 0⟩
  | _, _ => none

lemma foldl_min_le_init (xs : List ℚ) : ∀ a : ℚ, xs.foldl min a ≤ a := by
  induction xs with
  | nil => intro a; simp
  | cons x xs ih => intro a; exact le_trans (ih (min a x)) (min_le_left a x)

lemma foldl_min_le_mem (xs : List ℚ) : ∀ a y, y ∈ xs → xs.foldl min a ≤ y := by
  induction xs with
  | nil => intro a y hy; cases hy
  | cons x xs ih =>
    intro a y hy
    rcases List.mem_cons.mp hy with h | h
    · subst h
      exact le_trans (foldl_min_le_init xs (min a y)) (min_le_right a y)
    · exact ih (min a x) y h

lemma foldl_min_mem (xs : List ℚ) : ∀ a, xs.foldl min a = a ∨ xs.foldl min a ∈ xs := by
  induction xs with
  | nil => intro a; exact Or.inl rfl
  | cons x xs ih =>
    intro a
    rcases ih (min a x) with h | h
    · rcases le_total a x with hax | hax
      · left
        calc (x :: xs).foldl min a = xs.foldl min (min a x) := rfl
        _ = min a x := h
        _ = a := min_eq_left hax
      · right
        have hx : (x :: xs).foldl min a = x := by
          show xs.foldl min (min a x) = x
          rw [h, min_eq_right hax]
        rw [hx]
        exact List.mem_cons_self x xs
    · right
      exact List.mem_cons_of_mem x h

lemma foldl_max_ge_init (xs : List ℚ) : ∀ a : ℚ, a ≤ xs.foldl max a := by
  induction xs with
  | nil => intro a; simp
  | cons x xs ih => intro a; exact le_trans (le_max_left a x) (ih (max a x))

lemma foldl_max_ge_mem (xs : List ℚ) : ∀ a y, y ∈ xs → y ≤ xs.foldl max a := by
  induction xs with
  | nil => intro a y hy; cases hy
  | cons x xs ih =>
    intro a y hy
    rcases List.mem_cons.mp hy with h | h
    · subst h
      exact le_trans (le_max_right a y) (foldl_max_ge_init xs (max a y))
    · exact ih (max a x) y h

lemma foldl_max_mem (xs : List ℚ) : ∀ a, xs.foldl max a = a ∨ xs.foldl max a ∈ xs := by
  induction xs with
  | nil => intro a; exact Or.inl rfl
  | cons x xs ih =>
    intro a
    rcases ih (max a x) with h | h
    · rcases le_total x a with hax | hax
      · left
        calc (x :: xs).foldl max a = xs.foldl max (max a x) := rfl
        _ = max a x := h
        _ = a := max_eq_left hax
      · right
        have hx : (x :: xs).foldl max a = x := by
          show xs.foldl max (max a x) = x
          rw [h, max_eq_right hax]
        rw [hx]
        exact List.mem_cons_self x xs
    · right
      exact List.mem_cons_of_mem x h

lemma sqlMin_spec (scores : List ℚ) (m : ℚ) (h : sqlMin scores = some m) :
    m ∈ scores ∧ ∀ y ∈ scores, m ≤ y := by
  cases scores with
  | nil => cases h
  | cons x xs =>
    have hm : m = xs.foldl min x := by
      simpa [sqlMin] using h.symm
    subst hm
    refine ⟨?_, ?_⟩
    · rcases foldl_min_mem xs x with h1 | h1
      · rw [h1]; exact List.mem_cons_self x xs
      · exact List.mem_cons_of_mem x h1
    · intro y hy
      rcases List.mem_cons.mp hy with h1 | h1
      · subst h1; exact foldl_min_le_init xs y
      · exact foldl_min_le_mem xs x y h1

lemma sqlMax_spec (scores : List ℚ) (m : ℚ) (h : sqlMax scores = some m) :
    m ∈ scores ∧ ∀ y ∈ scores, y ≤ m := by
  cases scores with
  | nil => cases h
  | cons x xs =>
    have hm : m = xs.foldl max x := by
      simpa [sqlMax] using h.symm
    subst hm
    refine ⟨?_, ?_⟩
    · rcases foldl_max_mem xs x with h1 | h1
      · rw [h1]; exact List.mem_cons_self x xs
      · exact List.mem_cons_of_mem x h1
    · intro y hy
      rcases List.mem_cons.mp hy with h1 | h1
      · subst h1; exact foldl_max_ge_init xs y
      · exact foldl_max_ge_mem xs x y h1

/-- C3: when a (student, course) is marked completed, the created
`ImprovementRecord` has `initial_score` the minimum and `final_score` the
maximum of the observed scores, and `improvement_percentage` is
`(final - initial) / initial * 100`, except `0` when `initial_score = 0`. -/
theorem improvement_record_min_max (scores : List ℚ) (r : ImprovementRecord)
    (h : mark_course_completed scores = some r) :
    (r.initial_score ∈ scores ∧ ∀ y ∈ scores, r.initial_score ≤ y) ∧
    (r.final_score ∈ scores ∧ ∀ y ∈ scores, y ≤ r.final_score) ∧
    r.improvement_percentage =
      (if r.initial_score = 0 then 0
       else (r.final_score - r.initial_score) / r.initial_score * 100) := by
  unfold mark_course_completed at h
  cases hmin : sqlMin scores with
  | none => rw [hmin] at h; cases h
  | some ini =>
    cases hmax : sqlMax scores with
    | none => rw [hmin, hmax] at h; cases h
    | some fin =>
      rw [hmin, hmax] at h
      have hr : r = ⟨ini, fin, if ini ≠ 0 then (fin - ini) / ini * 100 else 0⟩ :=
        (Option.some_injective _ h).symm
      subst hr
      refine ⟨sqlMin_spec scores ini hmin, sqlMax_spec scores fin hmax, ?_⟩
      by_cases h0 : ini = 0 <;> simp [h0]

/-- Witness for C3 at scores `[0, 50]`: `initial = 0`, `final = 50`,
`improvement_percentage = 0` (not a division error). -/
theorem improvement_record_min_max_witness :
    (⟨0, 50, 0⟩ : ImprovementRecord).initial_score ∈ [(0 : ℚ), 50] ∧
    (⟨0, 50, 0⟩ : ImprovementRecord).improvement_percentage =
      (if (⟨0, 50, 0⟩ : ImprovementRecord).initial_score = 0 then 0
       else ((50 : ℚ) - 0) / 0 * 100) := by
  have h : mark_course_completed [(0 : ℚ), 50] = some ⟨0, 50, 0⟩ := by
    simp [mark_course_completed, sqlMin, sqlMax]
  have hthm := improvement_record_min_max [(0 : ℚ), 50] ⟨0, 50, 0⟩ h
  exact ⟨hthm.1.1, hthm.2.2⟩

/-- A row of the per-student score query in `analyze_student_performance`
(app.py); the query returns the rows ordered by `attempt_timestamp`. -/
structure ScoreRow where
  course_name : String
  score : ℚ
  max_score : ℚ
deriving DecidableEq, Repr

/-- One step of the Python grouping loop that builds `course_scores`:
a new course key is appended, an existing key has the row appended to its
group, so keys keep first-appearance order and rows keep arrival order. -/
def insertScore (acc : List (String × List ScoreRow)) (r : ScoreRow) :
    List (String × List ScoreRow) :=
  if acc.any (fun p => p.1 == r.course_name) then
    acc.map (fun p => if p.1 == r.course_name then (p.1, p.2 ++ [r]) else p)
  else acc ++ [(r.course_name, [r])]

/-- The `course_scores` dictionary of `analyze_student_performance`. -/
def groupScoresByCourse (scores : List ScoreRow) : List (String × List ScoreRow) :=
  scores.foldl insertScore []

/-- `latest_score = course_data[-1]['score']` (last attempt of the group). -/
def latestScore (g : List ScoreRow) : ℚ := ((g.getLast?).map ScoreRow.score).getD 0

/-- `max_score = course_data[0]['max_score']` (the code assumes `max_score`
is consistent per course and reads it from the group's first row). -/
def firstMaxScore (g : List ScoreRow) : ℚ := ((g.head?).map ScoreRow.max_score).getD 0

/-- `percentage = (latest_score / max_score) * 100 if max_score > 0 else 0`. -/
def coursePercentage (g : List ScoreRow) : ℚ :=
  if firstMaxScore g > 0 then latestScore g / firstMaxScore g * 100 else 0

/-- An entry of the `strengths` / `weaknesses` lists of
`analyze_student_performance`. -/
structure CourseEntry where
  course : String
  score : ℚ
  percentage : ℚ
deriving DecidableEq, Repr

/-- The classification loop of `analyze_student_performance` (app.py):
per course group, `if percentage >= 75` append to strengths,
`elif percentage < 60` append to weaknesses. -/
def analyze_student_performance (scores : List ScoreRow) :
    List CourseEntry × List CourseEntry :=
  let gs := groupScoresByCourse scores
  (gs.filterMap fun p =>
      if coursePercentage p.2 ≥ 75 then
        some ⟨p.1, latestScore p.2, coursePercentage p.2⟩
      else none,
   gs.filterMap fun p =>
      if coursePercentage p.2 ≥ 75 then none
      else if coursePercentage p.2 < 60 then
        some ⟨p.1, latestScore p.2, coursePercentage p.2⟩
      else none)

lemma insertScore_keys_nodup (acc : List (String × List ScoreRow)) (r : ScoreRow)
    (h : (acc.map Prod.fst).Nodup) : ((insertScore acc r).map Prod.fst).Nodup := by
  unfold insertScore
  by_cases hc : acc.any (fun p => p.1 == r.course_name)
  · have hkeys : (acc.map (fun p =>
        if p.1 == r.course_name then (p.1, p.2 ++ [r]) else p)).map Prod.fst =
        acc.map Prod.fst := by
      rw [List.map_map]
      apply List.map_congr_left
      intro p _
      show (if p.1 == r.course_name then (p.1, p.2 ++ [r]) else p).1 = p.1
      split <;> rfl
    rw [if_pos hc, hkeys]
    exact h
  · rw [if_neg hc, List.map_append]
    have hnotin : r.course_name ∉ acc.map Prod.fst := by
      intro hmem
      obtain ⟨p, hp, hfst⟩ := List.mem_map.mp hmem
      exact hc (List.any_eq_true.mpr ⟨p, hp, by simp [hfst]⟩)
    simp only [List.map_cons, List.map_nil]
    exact List.Nodup.append h (List.nodup_singleton _)
      (by intro a ha hb; rcases List.mem_singleton.mp hb with rfl; exact hnotin ha)

lemma groupScores_keys_nodup (scores : List ScoreRow) :
    ((groupScoresByCourse scores).map Prod.fst).Nodup := by
  suffices h : ∀ acc : List (String × List ScoreRow), (acc.map Prod.fst).Nodup →
      ((scores.foldl insertScore acc).map Prod.fst).Nodup by
    exact h [] (by simp)
  induction scores with
  | nil => intro acc hacc; exact hacc
  | cons r rs ih =>
    intro acc hacc
    exact ih (insertScore acc r) (insertScore_keys_nodup acc r hacc)

lemma eq_of_keys_nodup {α β : Type} (l : List (α × β)) :
    (l.map Prod.fst).Nodup →
    ∀ a b₁ b₂, (a, b₁) ∈ l → (a, b₂) ∈ l → b₁ = b₂ := by
  induction l with
  | nil => intro _ a b₁ b₂ h; cases h
  | cons p l ih =>
    intro hnd a b₁ b₂ h₁ h₂
    rw [List.map_cons, List.nodup_cons] at hnd
    rcases List.mem_cons.mp h₁ with e₁ | m₁ <;> rcases List.mem_cons.mp h₂ with e₂ | m₂
    · exact (Prod.mk.inj (e₁.trans e₂.symm)).2
    · rw [← e₁] at hnd
      exact absurd (List.mem_map.mpr ⟨(a, b₂), m₂, rfl⟩) hnd.1
    · rw [← e₂] at hnd
      exact absurd (List.mem_map.mpr ⟨(a, b₁), m₁, rfl⟩) hnd.1
    · exact ih hnd.2 a b₁ b₂ m₁ m₂

/-- C1: in `analyze_student_performance`, a course is a strength iff its
percentage (latest attempt's score over the course's `max_score`, `0` when
`max_score ≤ 0`) is `≥ 75` and a weakness iff that percentage is `< 60`;
the strength and weakness sets are disjoint, and the percentage depends
only on the latest attempt's score and the course's `max_score`, never on
the average of the attempts. -/
theorem strengths_weaknesses_analysis (scores : List ScoreRow) (c : String) :
    ((∃ e ∈ (analyze_student_performance scores).1, e.course = c) ↔
      (∃ g, (c, g) ∈ groupScoresByCourse scores ∧ coursePercentage g ≥ 75)) ∧
    ((∃ e ∈ (analyze_student_performance scores).2, e.course = c) ↔
      (∃ g, (c, g) ∈ groupScoresByCourse scores ∧ coursePercentage g < 60)) ∧
    ¬((∃ e ∈ (analyze_student_performance scores).1, e.course = c) ∧
      (∃ e ∈ (analyze_student_performance scores).2, e.course = c)) ∧
    (∀ g, coursePercentage g =
      (if firstMaxScore g ≤ 0 then 0 else latestScore g / firstMaxScore g * 100)) ∧
    (∀ g₁ g₂, latestScore g₁ = latestScore g₂ → firstMaxScore g₁ = firstMaxScore g₂ →
      coursePercentage g₁ = coursePercentage g₂) := by
  have hS : (∃ e ∈ (analyze_student_performance scores).1, e.course = c) ↔
      (∃ g, (c, g) ∈ groupScoresByCourse scores ∧ coursePercentage g ≥ 75) := by
    constructor
    · rintro ⟨e, he, hc⟩
      obtain ⟨p, hp, hfp⟩ := List.mem_filterMap.mp he
      by_cases h75 : coursePercentage p.2 ≥ 75
      · rw [if_pos h75] at hfp
        have he' : e = ⟨p.1, latestScore p.2, coursePercentage p.2⟩ :=
          (Option.some_injective _ hfp).symm
        refine ⟨p.2, ?_, h75⟩
        have : p.1 = c := by rw [← hc, he']
        rw [← this]
        exact hp
      · rw [if_neg h75] at hfp; cases hfp
    · rintro ⟨g, hg, h75⟩
      exact ⟨⟨c, latestScore g, coursePercentage g⟩,
        List.mem_filterMap.mpr ⟨(c, g), hg, by rw [if_pos h75]⟩, rfl⟩
  have hW : (∃ e ∈ (analyze_student_performance scores).2, e.course = c) ↔
      (∃ g, (c, g) ∈ groupScoresByCourse scores ∧ coursePercentage g < 60) := by
    constructor
    · rintro ⟨e, he, hc⟩
      obtain ⟨p, hp, hfp⟩ := List.mem_filterMap.mp he
      by_cases h75 : coursePercentage p.2 ≥ 75
      · rw [if_pos h75] at hfp; cases hfp
      · rw [if_neg h75] at hfp
        by_cases h60 : coursePercentage p.2 < 60
        · rw [if_pos h60] at hfp
          have he' : e = ⟨p.1, latestScore p.2, coursePercentage p.2⟩ :=
            (Option.some_injective _ hfp).symm
          refine ⟨p.2, ?_, h60⟩
          have : p.1 = c := by rw [← hc, he']
          rw [← this]
          exact hp
        · rw [if_neg h60] at hfp; cases hfp
    · rintro ⟨g, hg, h60⟩
      have h75 : ¬ coursePercentage g ≥ 75 := by intro h; linarith
      exact ⟨⟨c, latestScore g, coursePercentage g⟩,
        List.mem_filterMap.mpr ⟨(c, g), hg, by rw [if_neg h75, if_pos h60]⟩, rfl⟩
  refine ⟨hS, hW, ?_, ?_, ?_⟩
  · rintro ⟨hs, hw⟩
    obtain ⟨g₁, hg₁, h75⟩ := hS.mp hs
    obtain ⟨g₂, hg₂, h60⟩ := hW.mp hw
    have : g₁ = g₂ :=
      eq_of_keys_nodup _ (groupScores_keys_nodup scores) c g₁ g₂ hg₁ hg₂
    rw [this] at h75
    linarith
  · intro g
    unfold coursePercentage
    by_cases h : firstMaxScore g > 0
    · rw [if_pos h, if_neg (by linarith)]
    · rw [if_neg h, if_pos (by linarith)]
  · intro g₁ g₂ hl hm
    unfold coursePercentage
    rw [hl, hm]

/-- Witness for C1: a student with attempts 50 then 90 (max 100) in course
A and a single attempt 10 (max 100) in course B has A a strength (latest
90%, not the 70% average) and B a weakness, and the sets are disjoint. -/
theorem strengths_weaknesses_analysis_witness :
    (∃ e ∈ (analyze_student_performance
        [⟨"A", 50, 100⟩, ⟨"A", 90, 100⟩, ⟨"B", 10, 100⟩]).1, e.course = "A") ∧
    (∃ e ∈ (analyze_student_performance
        [⟨"A", 50, 100⟩, ⟨"A", 90, 100⟩, ⟨"B", 10, 100⟩]).2, e.course = "B") ∧
    ¬((∃ e ∈ (analyze_student_performance
        [⟨"A", 50, 100⟩, ⟨"A", 90, 100⟩, ⟨"B", 10, 100⟩]).1, e.course = "A") ∧
      (∃ e ∈ (analyze_student_performance
        [⟨"A", 50, 100⟩, ⟨"A", 90, 100⟩, ⟨"B", 10, 100⟩]).2, e.course = "A")) := by
  have hA := strengths_weaknesses_analysis
    [⟨"A", 50, 100⟩, ⟨"A", 90, 100⟩, ⟨"B", 10, 100⟩] "A"
  have hB := strengths_weaknesses_analysis
    [⟨"A", 50, 100⟩, ⟨"A", 90, 100⟩, ⟨"B", 10, 100⟩] "B"
  have hgroups : groupScoresByCourse
      [⟨"A", 50, 100⟩, ⟨"A", 90, 100⟩, ⟨"B", 10, 100⟩] =
      [("A", [⟨"A", 50, 100⟩, ⟨"A", 90, 100⟩]), ("B", [⟨"B", 10, 100⟩])] := rfl
  refine ⟨?_, ?_, hA.2.2.1⟩
  · apply hA.1.mpr
    refine ⟨[⟨"A", 50, 100⟩, ⟨"A", 90, 100⟩], ?_, ?_⟩
    · rw [hgroups]
      exact List.mem_cons_self _ _
    · norm_num [coursePercentage, firstMaxScore, latestScore, List.getLast?]
  · apply hB.2.1.mpr
    refine ⟨[⟨"B", 10, 100⟩], ?_, ?_⟩
    · rw [hgroups]
      exact List.mem_cons_of_mem _ (List.mem_cons_self _ _)
    · norm_num [coursePercentage, firstMaxScore, latestScore, List.getLast?]

/-- A row of the processed student dataframe handed to the simple mentor
matcher: `course_name`, `name`, optional `email` (dict `.get` with
default `'N/A'` in the source), and the `performance` label string. -/
structure StudentRec where
  course_name : String
  name : String
  email : Option String
  performance : String
deriving DecidableEq, Repr

/-- An output row of `match_mentors_simple`. -/
structure PairingRow where
  course : String
  mentor_name : String
  mentor_email : String
  mentee_name : String
  mentee_email : String
deriving DecidableEq, Repr

/-- `df['course_name'].unique()`: course names in first-appearance order. -/
def uniqueCourses (df : List StudentRec) : List String :=
  df.foldl (fun acc r =>
    if r.course_name ∈ acc then acc else acc ++ [r.course_name]) []

/-- The `mentors` list of a course in `match_mentors_simple`:
rows of the course whose performance is `'High'`. -/
def courseMentors (df : List StudentRec) (course : String) : List StudentRec :=
  (df.filter (fun r => r.course_name == course)).filter
    (fun r => r.performance == "High")

/-- The `mentees` list of a course: rows whose performance is `'Poor'`. -/
def courseMentees (df : List StudentRec) (course : String) : List StudentRec :=
  (df.filter (fun r => r.course_name == course)).filter
    (fun r => r.performance == "Poor")

/-- The rows `match_mentors_simple` emits for one course: index-wise
mentor/mentee pairs for `range(min(len, len))`, then an
`'Unassigned (Waitlist)'` placeholder row for each remaining mentee
(`range(len(mentors), len(mentees))`). -/
def coursePairings (df : List StudentRec) (course : String) : List PairingRow :=
  let mentors := courseMentors df course
  let mentees := courseMentees df course
  ((mentors.zip mentees).map fun mt =>
    ⟨course, mt.1.name, mt.1.email.getD "N/A", mt.2.name, mt.2.email.getD "N/A"⟩) ++
  ((mentees.drop mentors.length).map fun t =>
    ⟨course, "Unassigned (Waitlist)", "N/A", t.name, t.email.getD "N/A"⟩)

/-- `MentorMatcher.match_mentors_simple` (ml_engine/mentor_matcher.py);
`match_mentors` in ml_analyzer.py is the same algorithm. -/
def match_mentors_simple (df : List StudentRec) : List PairingRow :=
  (uniqueCourses df).flatMap (coursePairings df)

lemma uniqueCourses_aux_mem (rs : List StudentRec) :
    ∀ (acc : List String) (c : String),
      c ∈ rs.foldl (fun acc r =>
          if r.course_name ∈ acc then acc else acc ++ [r.course_name]) acc ↔
        c ∈ acc ∨ ∃ r ∈ rs, r.course_name = c := by
  induction rs with
  | nil => intro acc c; simp
  | cons r rs ih =>
    intro acc c
    rw [List.foldl_cons]
    by_cases h : r.course_name ∈ acc
    · rw [if_pos h, ih]
      constructor
      · rintro (hc | ⟨r', hr', hc⟩)
        · exact Or.inl hc
        · exact Or.inr ⟨r', List.mem_cons_of_mem r hr', hc⟩
      · rintro (hc | ⟨r', hr', hc⟩)
        · exact Or.inl hc
        · rcases List.mem_cons.mp hr' with rfl | hr'
          · exact Or.inl (hc ▸ h)
          · exact Or.inr ⟨r', hr', hc⟩
    · rw [if_neg h, ih]
      constructor
      · rintro (hc | ⟨r', hr', hc⟩)
        · rcases List.mem_append.mp hc with hc | hc
          · exact Or.inl hc
          · exact Or.inr ⟨r, List.mem_cons_self r rs,
              (List.mem_singleton.mp hc).symm⟩
        · exact Or.inr ⟨r', List.mem_cons_of_mem r hr', hc⟩
      · rintro (hc | ⟨r', hr', hc⟩)
        · exact Or.inl (List.mem_append.mpr (Or.inl hc))
        · rcases List.mem_cons.mp hr' with rfl | hr'
          · exact Or.inl (List.mem_append.mpr (Or.inr (by simp [hc])))
          · exact Or.inr ⟨r', hr', hc⟩

lemma mem_uniqueCourses (df : List StudentRec) (c : String) :
    c ∈ uniqueCourses df ↔ ∃ r ∈ df, r.course_name = c := by
  rw [uniqueCourses, uniqueCourses_aux_mem]
  simp

lemma uniqueCourses_aux_nodup (rs : List StudentRec) :
    ∀ acc : List String, acc.Nodup →
      (rs.foldl (fun acc r =>
        if r.course_name ∈ acc then acc else acc ++ [r.course_name]) acc).Nodup := by
  induction rs with
  | nil => intro acc hacc; exact hacc
  | cons r rs ih =>
    intro acc hacc
    rw [List.foldl_cons]
    by_cases h : r.course_name ∈ acc
    · rw [if_pos h]; exact ih acc hacc
    · rw [if_neg h]
      refine ih _ (List.Nodup.append hacc (List.nodup_singleton _) ?_)
      intro a ha hb
      rcases List.mem_singleton.mp hb with rfl
      exact h ha

lemma uniqueCourses_nodup (df : List StudentRec) : (uniqueCourses df).Nodup :=
  uniqueCourses_aux_nodup df [] List.nodup_nil

lemma coursePairings_course (df : List StudentRec) (c' : String) :
    ∀ row ∈ coursePairings df c', row.course = c' := by
  intro row hrow
  rcases List.mem_append.mp hrow with h | h
  · obtain ⟨mt, _, hmt⟩ := List.mem_map.mp h
    rw [← hmt]
  · obtain ⟨t, _, ht⟩ := List.mem_map.mp h
    rw [← ht]

lemma filter_coursePairings (df : List StudentRec) (c' c : String) :
    (coursePairings df c').filter (fun r => r.course == c) =
      if c' = c then coursePairings df c' else [] := by
  by_cases h : c' = c
  · rw [if_pos h]
    rw [List.filter_eq_self]
    intro row hrow
    simp [coursePairings_course df c' row hrow, h]
  · rw [if_neg h]
    rw [List.filter_eq_nil_iff]
    intro row hrow
    simp [coursePairings_course df c' row hrow, h]

lemma filter_flatMap_blocks (df : List StudentRec) (c : String) :
    ∀ cs : List String, cs.Nodup →
      ((cs.flatMap (coursePairings df)).filter (fun r => r.course == c) =
        if c ∈ cs then coursePairings df c else []) := by
  intro cs
  induction cs with
  | nil => intro _; simp
  | cons c' cs ih =>
    intro hnd
    rw [List.nodup_cons] at hnd
    rw [List.flatMap_cons, List.filter_append, filter_coursePairings, ih hnd.2]
    by_cases h : c' = c
    · subst h
      rw [if_pos rfl, if_neg hnd.1, if_pos (List.mem_cons_self c' cs), List.append_nil]
    · rw [if_neg h]
      by_cases hc : c ∈ cs
      · rw [if_pos hc, if_pos (List.mem_cons_of_mem c' hc), List.nil_append]
      · rw [if_neg hc, if_neg (by
          intro hmem
          rcases List.mem_cons.mp hmem with rfl | hmem
          · exact h rfl
          · exact hc hmem), List.nil_append]

lemma courseMentees_empty_of_not_mem (df : List StudentRec) (c : String)
    (h : c ∉ uniqueCourses df) : courseMentees df c = [] := by
  unfold courseMentees
  have : df.filter (fun r => r.course_name == c) = [] := by
    rw [List.filter_eq_nil_iff]
    intro r hr hrc
    exact h ((mem_uniqueCourses df c).mpr ⟨r, hr, by simpa using hrc⟩)
  rw [this, List.filter_nil]

lemma courseMentors_empty_of_not_mem (df : List StudentRec) (c : String)
    (h : c ∉ uniqueCourses df) : courseMentors df c = [] := by
  unfold courseMentors
  have : df.filter (fun r => r.course_name == c) = [] := by
    rw [List.filter_eq_nil_iff]
    intro r hr hrc
    exact h ((mem_uniqueCourses df c).mpr ⟨r, hr, by simpa using hrc⟩)
  rw [this, List.filter_nil]

/-- C7: in the simple mentor matcher, the output rows of any course are
exactly the index-wise mentor/mentee pairs followed by one
`'Unassigned (Waitlist)'` placeholder row per remaining unpaired mentee,
so each course yields one row per Poor student; concretely, a course with
3 weak and 1 strong student produces 3 rows (1 real pairing and 2
placeholders). -/
theorem simple_matching_waitlist (df : List StudentRec) (c : String) :
    ((match_mentors_simple df).filter (fun r => r.course == c) =
      coursePairings df c) ∧
    (((match_mentors_simple df).filter (fun r => r.course == c)).length =
      (courseMentees df c).length) ∧
    match_mentors_simple
      [⟨"C", "W1", none, "Poor"⟩, ⟨"C", "W2", none, "Poor"⟩,
       ⟨"C", "W3", none, "Poor"⟩, ⟨"C", "S1", none, "High"⟩] =
      [⟨"C", "S1", "N/A", "W1", "N/A"⟩,
       ⟨"C", "Unassigned (Waitlist)", "N/A", "W2", "N/A"⟩,
       ⟨"C", "Unassigned (Waitlist)", "N/A", "W3", "N/A"⟩] := by
  have hmain : (match_mentors_simple df).filter (fun r => r.course == c) =
      coursePairings df c := by
    rw [match_mentors_simple,
      filter_flatMap_blocks df c (uniqueCourses df) (uniqueCourses_nodup df)]
    by_cases h : c ∈ uniqueCourses df
    · rw [if_pos h]
    · rw [if_neg h]
      unfold coursePairings
      rw [courseMentees_empty_of_not_mem df c h,
        courseMentors_empty_of_not_mem df c h]
      simp
  refine ⟨hmain, ?_, by rfl⟩
  rw [hmain]
  unfold coursePairings
  rw [List.length_append, List.length_map, List.length_zip, List.length_map,
    List.length_drop]
  omega

/-- The 10-entry course catalog hard-coded in
`CourseRecommender.recommend_from_weaknesses` (ml_engine/recommender.py),
in dictionary insertion order. -/
def catalog : List (String × List String) :=
  [("Python", ["Python Fundamentals", "Data Structures in Python"]),
   ("Java", ["Java Programming I", "Object Oriented Programming"]),
   ("SQL", ["Database Design", "SQL Masterclass"]),
   ("Data Science", ["Statistics for DS", "Intro to ML"]),
   ("Computer Networks", ["Networking Basics", "TCP/IP Protocols"]),
   ("Math", ["Linear Algebra", "Calculus Refresher"]),
   ("Web Development", ["HTML/CSS Bootcamp", "JavaScript Essentials"]),
   ("Algorithms", ["Algorithms I", "Competitive Programming"]),
   ("Operating Systems", ["OS Concepts", "Linux Admin"]),
   ("Security", ["Cybersecurity Basics", "Ethical Hacking"])]

/-- Python's contiguous-substring test `needle in hay` on strings. -/
def isSubstrOf (needle hay : String) : Bool :=
  (List.range (hay.toList.length + 1)).any fun i =>
    needle.toList.isPrefixOf (hay.toList.drop i)

/-- `CourseRecommender.recommend_from_weaknesses`: extend with the courses
of every catalog entry whose key matches a weakness by substring in either
direction; if nothing matched and the weakness list is non-empty, append
the single generic fallback; finally `list(set(...))`. CPython's set
iteration order is unspecified, so the embedding dedups keeping first
occurrences; the properties proved below (no duplicates, singleton
fallback) do not depend on that order. -/
def recommend_from_weaknesses (weaknesses : List String) : List String :=
  let recommendations := weaknesses.flatMap fun subject =>
    (catalog.filter fun kv =>
      isSubstrOf kv.1 subject || isSubstrOf subject kv.1).flatMap Prod.snd
  let recommendations :=
    if recommendations.isEmpty && !weaknesses.isEmpty then
      recommendations ++ ["General Study Skills Workshop"]
    else recommendations
  recommendations.dedup

/-- C9: the catalog recommender returns exactly the single generic
fallback `'General Study Skills Workshop'` whenever the weakness list is
non-empty and no catalog key matches any weakness by substring containment
in either direction, and its output never contains duplicates. -/
theorem recommender_fallback_and_nodup (weaknesses : List String)
    (hne : weaknesses ≠ [])
    (hnomatch : ∀ w ∈ weaknesses, ∀ kv ∈ catalog,
      isSubstrOf kv.1 w = false ∧ isSubstrOf w kv.1 = false) :
    recommend_from_weaknesses weaknesses = ["General Study Skills Workshop"] ∧
    ∀ ws : List String, (recommend_from_weaknesses ws).Nodup := by
  constructor
  · unfold recommend_from_weaknesses
    have hempty : (weaknesses.flatMap fun subject =>
        (catalog.filter fun kv =>
          isSubstrOf kv.1 subject || isSubstrOf subject kv.1).flatMap Prod.snd) =
        [] := by
      rw [List.flatMap_eq_nil_iff]
      intro w hw
      rw [List.flatMap_eq_nil_iff]
      intro kv hkv
      rw [List.mem_filter] at hkv
      obtain ⟨h1, h2⟩ := hnomatch w hw kv hkv.1
      rw [h1, h2] at hkv
      cases hkv.2
    rw [hempty]
    have hwne : weaknesses.isEmpty = false := by
      cases weaknesses with
      | nil => exact absurd rfl hne
      | cons x xs => rfl
    simp [hwne]
  · intro ws
    exact List.nodup_dedup _

/-- Witness for C9 at the weakness list `["Quantum Mechanics"]`, which no
catalog key matches in either direction. -/
theorem recommender_fallback_witness :
    recommend_from_weaknesses ["Quantum Mechanics"] =
      ["General Study Skills Workshop"] ∧
    (recommend_from_weaknesses ["Python", "Python"]).Nodup := by
  have h := recommender_fallback_and_nodup ["Quantum Mechanics"]
    (by decide) (by decide)
  exact ⟨h.1, h.2 ["Python", "Python"]⟩

/-- Python exceptions that `process_student_data` (process_data.py) can
raise between its required-columns check and its group-by:
`ValueError(f"Missing required columns: {missing_cols}")`, and the pandas
`KeyError` raised by `df.groupby` on a column absent from the frame. -/
inductive PdError where
  | valueError (missing_cols : List String) : PdError
  | keyError (col : String) : PdError
deriving DecidableEq, Repr

/-- `required_cols = ['student_id', 'name', 'course_name', 'score']`. -/
def required_cols : List String := ["student_id", "name", "course_name", "score"]

/-- `group_cols = ['student_id', 'name', 'course_name', 'email']`, the
unconditional group-by key of `process_data.process_student_data`. -/
def group_cols : List String := ["student_id", "name", "course_name", "email"]

/-- The `course` → `course_name` rename performed just before the
required-columns check. -/
def renameCourse (cols : List String) : List String :=
  if "course" ∈ cols ∧ "course_name" ∉ cols then
    cols.map (fun c => if c = "course" then "course_name" else c)
  else cols


/-- Column-level embedding of `process_data.process_student_data` from the
required-columns check through the group-by step; `cols` is the column set
of the cleaned dataframe (the Python locals `missing_cols` and
`group_cols` appear inline here). Missing required columns raise
`ValueError` naming them; otherwise `df.groupby(group_cols)` raises
`KeyError` at the first group key absent from the columns; otherwise
aggregation proceeds. -/
def process_student_data_cols (cols : List String) : Except PdError Unit :=
  if required_cols.filter (fun c => c ∉ renameCourse cols) ≠ [] then
    Except.error (PdError.valueError
      (required_cols.filter (fun c => c ∉ renameCourse cols)))
  else
    match group_cols.find? (fun c => c ∉ renameCourse cols) with
    | some c => Except.error (PdError.keyError c)
    | none => Except.ok ()

lemma renameCourse_of_course_name_mem (cols : List String)
    (h : "course_name" ∈ cols) : renameCourse cols = cols := by
  unfold renameCourse
  rw [if_neg]
  rintro ⟨_, hno⟩
  exact hno h

lemma required_filter_nil (cols : List String)
    (hreq : ∀ c ∈ required_cols, c ∈ renameCourse cols) :
    required_cols.filter (fun c => c ∉ renameCourse cols) = [] := by
  rw [List.filter_eq_nil_iff]
  intro c hc
  simp [hreq c hc]

lemma find_email_missing (cols : List String)
    (hreq : ∀ c ∈ required_cols, c ∈ renameCourse cols)
    (hemail : "email" ∉ renameCourse cols) :
    group_cols.find? (fun c => c ∉ renameCourse cols) = some "email" := by
  have hid := hreq "student_id" (by simp [required_cols])
  have hname := hreq "name" (by simp [required_cols])
  have hcn := hreq "course_name" (by simp [required_cols])
  simp [group_cols, List.find?, hid, hname, hcn, hemail]

lemma process_cols_email_missing (cols : List String)
    (hreq : ∀ c ∈ required_cols, c ∈ renameCourse cols)
    (hemail : "email" ∉ renameCourse cols) :
    process_student_data_cols cols = Except.error (PdError.keyError "email") := by
  unfold process_student_data_cols
  rw [required_filter_nil cols hreq]
  rw [if_neg (by simp)]
  rw [find_email_missing cols hreq hemail]

/-- C10: every cleaned dataset whose columns include the documented
required columns (`student_id`, `name`, `course_name`, `score`) but no
`email` column passes the required-columns validation and then raises a
`KeyError` from the group-by step, which unconditionally groups on
`['student_id', 'name', 'course_name', 'email']`. -/
theorem missing_email_groupby_keyerror (cols : List String)
    (hreq : ∀ c ∈ required_cols, c ∈ cols) (hemail : "email" ∉ cols) :
    required_cols.filter (fun c => c ∉ renameCourse cols) = [] ∧
    process_student_data_cols cols = Except.error (PdError.keyError "email") := by
  have hcn : "course_name" ∈ cols := hreq "course_name" (by simp [required_cols])
  have hren : renameCourse cols = cols := renameCourse_of_course_name_mem cols hcn
  have hreq' : ∀ c ∈ required_cols, c ∈ renameCourse cols := by
    intro c hc
    rw [hren]
    exact hreq c hc
  refine ⟨required_filter_nil cols hreq', ?_⟩
  exact process_cols_email_missing cols hreq' (by rw [hren]; exact hemail)

/-- Witness for C10 at the column set containing exactly the four
documented required columns. -/
theorem missing_email_groupby_keyerror_witness :
    process_student_data_cols ["student_id", "name", "course_name", "score"] =
      Except.error (PdError.keyError "email") :=
  (missing_email_groupby_keyerror ["student_id", "name", "course_name", "score"]
    (by decide) (by decide)).2

/-- C8 counterexample: the claim says aggregation does not raise when the
required identity/score columns are present, but with exactly
`['student_id', 'name', 'course_name', 'score']` present the group-by
step still raises (a `KeyError` on `email`), so aggregation fails. -/
theorem aggregation_no_raise_counterexample :
    process_student_data_cols ["student_id", "name", "course_name", "score"] ≠
      Except.ok () ∧
    process_student_data_cols ["student_id", "name", "course_name", "score"] =
      Except.error (PdError.keyError "email") := by
  have h : process_student_data_cols ["student_id", "name", "course_name", "score"] =
      Except.error (PdError.keyError "email") := by rfl
  refine ⟨?_, h⟩
  rw [h]
  intro hcontra
  cases hcontra

/-- C8 (amended): `process_student_data` raises a validation error (a
Python `ValueError`) naming exactly the missing required columns whenever
one of `student_id`, `name`, `course_name`, `score` is absent after the
`course` rename; when all four are present, the validation passes, but
aggregation proceeds without raising only when `email` is also present —
otherwise the group-by raises a `KeyError` on `email`. -/
theorem aggregation_validation (cols : List String) :
    (process_student_data_cols cols = Except.ok () ↔
      (∀ c ∈ required_cols, c ∈ renameCourse cols) ∧
        "email" ∈ renameCourse cols) ∧
    (required_cols.filter (fun c => c ∉ renameCourse cols) ≠ [] →
      process_student_data_cols cols = Except.error
        (PdError.valueError
          (required_cols.filter (fun c => c ∉ renameCourse cols)))) ∧
    ((∀ c ∈ required_cols, c ∈ renameCourse cols) →
      "email" ∉ renameCourse cols →
      process_student_data_cols cols = Except.error (PdError.keyError "email")) := by
  refine ⟨?_, ?_, process_cols_email_missing cols⟩
  · by_cases hmiss : required_cols.filter (fun c => c ∉ renameCourse cols) = []
    · have hreq : ∀ c ∈ required_cols, c ∈ renameCourse cols := by
        rw [List.filter_eq_nil_iff] at hmiss
        intro c hc
        simpa using hmiss c hc
      by_cases hemail : "email" ∈ renameCourse cols
      · have hfind : group_cols.find? (fun c => c ∉ renameCourse cols) = none := by
          rw [List.find?_eq_none]
          intro c hc
          have hmem : c ∈ renameCourse cols := by
            simp only [group_cols, List.mem_cons, List.mem_singleton,
              List.not_mem_nil, or_false] at hc
            rcases hc with rfl | rfl | rfl | rfl
            · exact hreq "student_id" (by simp [required_cols])
            · exact hreq "name" (by simp [required_cols])
            · exact hreq "course_name" (by simp [required_cols])
            · exact hemail
          simp [hmem]
        have hok : process_student_data_cols cols = Except.ok () := by
          unfold process_student_data_cols
          rw [hmiss, if_neg (by simp), hfind]
        exact iff_of_true hok ⟨hreq, hemail⟩
      · exact iff_of_false
          (by rw [process_cols_email_missing cols hreq hemail]; simp)
          (fun hco => hemail hco.2)
    · have herr : process_student_data_cols cols = Except.error
          (PdError.valueError
            (required_cols.filter (fun c => c ∉ renameCourse cols))) := by
        unfold process_student_data_cols
        rw [if_pos hmiss]
      exact iff_of_false (by rw [herr]; simp)
        (fun hco => hmiss (required_filter_nil cols hco.1))
  · intro hmiss
    unfold process_student_data_cols
    rw [if_pos hmiss]

/-- Witness for C8 (amended): with all four required columns and `email`,
aggregation proceeds; with a missing `score` column the validation error
names it; without `email` the group-by raises the `KeyError`. -/
theorem aggregation_validation_witness :
    process_student_data_cols
      ["student_id", "name", "course_name", "score", "email"] = Except.ok () ∧
    process_student_data_cols ["student_id", "name", "course_name"] =
      Except.error (PdError.valueError ["score"]) ∧
    process_student_data_cols ["student_id", "name", "course_name", "score"] =
      Except.error (PdError.keyError "email") := by
  refine ⟨(aggregation_validation
      ["student_id", "name", "course_name", "score", "email"]).1.mpr
    ⟨by decide, by decide⟩, ?_, (aggregation_validation
      ["student_id", "name", "course_name", "score"]).2.2
    (by decide) (by decide)⟩
  have h := (aggregation_validation ["student_id", "name", "course_name"]).2.1
    (by decide)
  rw [h]
  rfl

/-- A row of the `scores` table (joined with `courses`) as stored in the
database; the database has all four columns available. -/
structure DbScore where
  student_id : String
  course_id : String
  score : ℚ
  max_score : ℚ
deriving DecidableEq, Repr

/-- A value held in a fetched row / dataframe cell. -/
inductive PyVal where
  | str (s : String) : PyVal
  | num (q : ℚ) : PyVal
deriving DecidableEq, Repr

/-- The projection performed by the query of `ml_mentor_matching_ml`
(app.py): `SELECT s.student_id, c.course_id, s.score FROM scores s JOIN
courses c ON s.course_id = c.course_id`. The fetched rows carry exactly
these three fields — `max_score` is not selected. -/
def mlQueryRow (r : DbScore) : List (String × PyVal) :=
  [("student_id", PyVal.str r.student_id),
   ("course_id", PyVal.str r.course_id),
   ("score", PyVal.num r.score)]

/-- `row[field]` on a fetched row: Python raises `KeyError` when the
field is absent. -/
def rowGet (row : List (String × PyVal)) (field : String) : Except String PyVal :=
  match row.lookup field with
  | some v => Except.ok v
  | none => Except.error ("KeyError: " ++ field)

/-- The weak-course loop of `ml_mentor_matching_ml`: over the rows of the
frame whose `student_id` equals the weak student, evaluate
`score_row['max_score'] > 0 and (score_row['score'] / score_row['max_score']) * 100 < 60`
(accessing `max_score` first, as Python evaluates the conjunction
left-to-right) and collect the `course_id`s that pass. -/
def weakCoursesOf (df : List (List (String × PyVal))) (weak_student_id : String) :
    Except String (List String) :=
  (df.filter (fun row =>
      row.lookup "student_id" = some (PyVal.str weak_student_id))).foldlM
    (fun acc row => do
      let ms ← rowGet row "max_score"
      let sc ← rowGet row "score"
      let cid ← rowGet row "course_id"
      match ms, sc, cid with
      | PyVal.num msq, PyVal.num scq, PyVal.str c =>
          if msq > 0 ∧ scq / msq * 100 < 60 then pure (acc ++ [c]) else pure acc
      | _, _, _ => Except.error "TypeError") []

/-- `ml_mentor_matching_ml` up to and including its weak-course
computation. The similarity ranking computed before this step does not
influence it, and the candidate-scoring loop only runs after it, so the
result of this prefix decides whether the function can produce mentors. -/
def ml_mentor_matching_weak_courses (allScores : List DbScore)
    (weak_student_id : String) : Except String (List String) :=
  weakCoursesOf (allScores.map mlQueryRow) weak_student_id

/-- C4 (code evaluated at the failing behavior): whenever the weak
student has at least one score row, the weak-course loop of
`ml_mentor_matching_ml` raises `KeyError: 'max_score'` (the query never
selected `max_score`), so the function cannot reach the
similarity-weighted candidate scoring the claim describes. -/
theorem ml_mentor_matching_keyerror (allScores : List DbScore) (sid : String)
    (h : ∃ r ∈ allScores, r.student_id = sid) :
    ml_mentor_matching_weak_courses allScores sid =
      Except.error "KeyError: max_score" := by
  obtain ⟨r, hr, hrid⟩ := h
  unfold ml_mentor_matching_weak_courses weakCoursesOf
  have hmem : mlQueryRow r ∈ (allScores.map mlQueryRow).filter
      (fun row => row.lookup "student_id" = some (PyVal.str sid)) := by
    rw [List.mem_filter]
    refine ⟨List.mem_map.mpr ⟨r, hr, rfl⟩, ?_⟩
    simp [mlQueryRow, List.lookup, hrid]
  cases hfilter : (allScores.map mlQueryRow).filter
      (fun row => row.lookup "student_id" = some (PyVal.str sid)) with
  | nil =>
    rw [hfilter] at hmem
    cases hmem
  | cons row rest =>
    have hrowmem : row ∈ (allScores.map mlQueryRow).filter
        (fun row => row.lookup "student_id" = some (PyVal.str sid)) := by
      rw [hfilter]
      exact List.mem_cons_self row rest
    obtain ⟨r', _, hr'⟩ := List.mem_map.mp (List.mem_filter.mp hrowmem).1
    rw [List.foldlM_cons]
    have hstep : rowGet row "max_score" = Except.error "KeyError: max_score" := by
      rw [← hr']
      rfl
    show (do
        let ms ← rowGet row "max_score"
        let sc ← rowGet row "score"
        let cid ← rowGet row "course_id"
        match ms, sc, cid with
        | PyVal.num msq, PyVal.num scq, PyVal.str c =>
            if msq > 0 ∧ scq / msq * 100 < 60 then pure ([] ++ [c]) else pure []
        | _, _, _ => Except.error "TypeError") >>= (fun init =>
          List.foldlM _ init rest) = Except.error "KeyError: max_score"
    rw [hstep]
    rfl

/-- Witness for C4: a database where student S1 scored 30 (out of 100) in
course C1 and S2 scored 90; asking mentors for S1 raises the KeyError. -/
theorem ml_mentor_matching_keyerror_witness :
    ml_mentor_matching_weak_courses
      [⟨"S1", "C1", 30, 100⟩, ⟨"S2", "C1", 90, 100⟩] "S1" =
      Except.error "KeyError: max_score" :=
  ml_mentor_matching_keyerror
    [⟨"S1", "C1", 30, 100⟩, ⟨"S2", "C1", 90, 100⟩] "S1"
    ⟨⟨"S1", "C1", 30, 100⟩, by simp, rfl⟩



/-- SQL `AVG(score)`: NULL when there are no rows, else the mean. -/
def sqlAvg (l : List ℚ) : Option ℚ :=
  if l.isEmpty then none else some (l.sum / l.length)

/-- All scores of one student (the `student_performance` join of
`generate_mentor_pairings`). -/
def scoresOfStudent (db : List DbScore) (sid : String) : List ℚ :=
  (db.filter (fun r => r.student_id == sid)).map DbScore.score

/-- Weak-student selection of `generate_mentor_pairings`: a student with
at least one score row (the JOIN drops the rest) whose overall average is
`< 60`. -/
def isWeakStudent (db : List DbScore) (sid : String) : Bool :=
  match sqlAvg (scoresOfStudent db sid) with
  | some a => decide (a < 60)
  | none => false

/-- The `weak_students` list of `generate_mentor_pairings`. -/
def weak_students (students : List String) (db : List DbScore) : List String :=
  students.filter (fun sid => isWeakStudent db sid)

/-- The rows of one student in the `scores` table. -/
def studentRows (db : List DbScore) (sid : String) : List DbScore :=
  db.filter (fun r => r.student_id == sid)

/-- The distinct (course_id, max_score) keys of a row set, in
first-appearance order: the effective grouping key of the weak-course
query `GROUP BY sc.course_id, c.course_name, sc.max_score`
(`course_name` is functionally determined by `course_id`, which is unique
in the `courses` table, so it does not refine the key; `max_score`
does). -/
def courseMaxKeys (rows : List DbScore) : List (String × ℚ) :=
  rows.foldl (fun acc r =>
    if (r.course_id, r.max_score) ∈ acc then acc
    else acc ++ [(r.course_id, r.max_score)]) []

/-- The per-weak-student weak-course query of `generate_mentor_pairings`:
one group per distinct (course_id, max_score) pair of the student's rows,
kept when the group's average is `< 60` (`HAVING avg_score < 60`), each
carrying its `avg_score` (used as `weak_avg`). `ORDER BY avg_score ASC`
only fixes the iteration order over groups, which the properties proved
below do not depend on; the embedding keeps first-appearance order. -/
def weakCourseGroups (db : List DbScore) (sid : String) : List (String × ℚ) :=
  (courseMaxKeys (studentRows db sid)).filterMap (fun k =>
    match sqlAvg (((studentRows db sid).filter (fun r =>
        r.course_id == k.1 && r.max_score == k.2)).map DbScore.score) with
    | some a => if a < 60 then some (k.1, a) else none
    | none => none)

/-- Insertion into a list ordered by average descending (embeds
`ORDER BY avg_score DESC`; the averages of the concrete run below are
distinct, so tie order is immaterial). -/
def insertByAvgDesc (x : String × ℚ) : List (String × ℚ) → List (String × ℚ)
  | [] => [x]
  | y :: ys => if x.2 > y.2 then x :: y :: ys else y :: insertByAvgDesc x ys

def sortByAvgDesc (l : List (String × ℚ)) : List (String × ℚ) :=
  l.foldr insertByAvgDesc []

/-- The per-course mentor query of `generate_mentor_pairings`: every
student whose average in the course is `>= 75` (`HAVING avg_score >= 75`),
ordered by that average descending, `LIMIT 5`. -/
def potential_mentors (students : List String) (db : List DbScore)
    (cid : String) : List (String × ℚ) :=
  (sortByAvgDesc (students.filterMap (fun sid =>
    match sqlAvg ((db.filter (fun r =>
        r.student_id == sid && r.course_id == cid)).map DbScore.score) with
    | some a => if a ≥ 75 then some (sid, a) else none
    | none => none))).take 5

/-- A row of the `pairings` table. -/
structure Pairing where
  course_id : String
  weak_student_id : String
  mentor_id : String
  compatibility : ℚ
deriving DecidableEq, Repr

/-- One run of `generate_mentor_pairings` (app.py) over the
pairings-table state `init`. The inner loop breaks after 2 mentors
(`if i >= 2: break`), so up to 2 inserts per weak-course *group*; each
insert is `INSERT OR IGNORE`, but the `pairings` schema declares no
UNIQUE constraint over (course_id, weak_student_id, mentor_id) — only an
autoincrement primary key — so `OR IGNORE` never suppresses anything and
every insert appends a row. -/
def generate_mentor_pairings_run (students : List String) (db : List DbScore)
    (init : List Pairing) : List Pairing :=
  (weak_students students db).foldl (fun tbl wsid =>
    (weakCourseGroups db wsid).foldl (fun tbl wc =>
      ((potential_mentors students db wc.1).take 2).foldl (fun tbl m =>
        tbl ++ [⟨wc.1, wsid, m.1, compatibility_score m.2 wc.2⟩]) tbl) tbl) init

/-- Number of pairings rows for one (weak student, course) pair. -/
def pairingsCount (tbl : List Pairing) (wsid cid : String) : ℕ :=
  (tbl.filter (fun p => p.weak_student_id == wsid && p.course_id == cid)).length

/-- The students of the C5 counterexample run. -/
def pairingStudents : List String := ["W", "M1", "M2"]

/-- The scores of the C5 counterexample run: weak student W has two score
rows in course C1 with different `max_score` values (50/100 and 30/50),
and M1, M2 average 90 and 80 in C1. -/
def pairingDb : List DbScore :=
  [⟨"W", "C1", 50, 100⟩, ⟨"W", "C1", 30, 50⟩,
   ⟨"M1", "C1", 90, 100⟩, ⟨"M2", "C1", 80, 100⟩]

/-- C5 (code evaluated at the failing input): one run from an empty
pairings table on `pairingDb` inserts 4 pairings rows for (W, C1) — the
two weak-course groups of W in C1 (one per distinct `max_score`) each get
the same top-2 mentors, and no uniqueness constraint suppresses the
duplicates — exceeding the documented cap of 2 mentors per
(weak_student, course). -/
theorem pairing_cap_violated :
    generate_mentor_pairings_run pairingStudents pairingDb [] =
      [⟨"C1", "W", "M1", 90⟩, ⟨"C1", "W", "M2", 85⟩,
       ⟨"C1", "W", "M1", 100⟩, ⟨"C1", "W", "M2", 95⟩] ∧
    pairingsCount (generate_mentor_pairings_run pairingStudents pairingDb [])
      "W" "C1" = 4 := by
  have hsW : scoresOfStudent pairingDb "W" = [50, 30] := by
    simp [scoresOfStudent, pairingDb]
  have hsM1 : scoresOfStudent pairingDb "M1" = [90] := by
    simp [scoresOfStudent, pairingDb]
  have hsM2 : scoresOfStudent pairingDb "M2" = [80] := by
    simp [scoresOfStudent, pairingDb]
  have havgW : sqlAvg [(50 : ℚ), 30] = some 40 := by norm_num [sqlAvg]
  have havgM1 : sqlAvg [(90 : ℚ)] = some 90 := by norm_num [sqlAvg]
  have havgM2 : sqlAvg [(80 : ℚ)] = some 80 := by norm_num [sqlAvg]
  have hwkW : isWeakStudent pairingDb "W" = true := by
    unfold isWeakStudent
    rw [hsW, havgW]
    norm_num
  have hwkM1 : isWeakStudent pairingDb "M1" = false := by
    unfold isWeakStudent
    rw [hsM1, havgM1]
    norm_num
  have hwkM2 : isWeakStudent pairingDb "M2" = false := by
    unfold isWeakStudent
    rw [hsM2, havgM2]
    norm_num
  have hws : weak_students pairingStudents pairingDb = ["W"] := by
    simp [weak_students, pairingStudents, hwkW, hwkM1, hwkM2]
  have hrows : studentRows pairingDb "W" =
      [⟨"W", "C1", 50, 100⟩, ⟨"W", "C1", 30, 50⟩] := by
    simp [studentRows, pairingDb]
  have hkeys : courseMaxKeys [⟨"W", "C1", 50, 100⟩, ⟨"W", "C1", 30, 50⟩] =
      [("C1", 100), ("C1", 50)] := by
    norm_num [courseMaxKeys, Prod.mk.injEq]
  have hgroups : weakCourseGroups pairingDb "W" = [("C1", 50), ("C1", 30)] := by
    unfold weakCourseGroups
    rw [hrows, hkeys]
    norm_num [sqlAvg, List.filterMap]
  have hcW : pairingDb.filter
      (fun r => r.student_id == "W" && r.course_id == "C1") =
      [⟨"W", "C1", 50, 100⟩, ⟨"W", "C1", 30, 50⟩] := by
    simp [pairingDb]
  have hcM1 : pairingDb.filter
      (fun r => r.student_id == "M1" && r.course_id == "C1") =
      [⟨"M1", "C1", 90, 100⟩] := by
    simp [pairingDb]
  have hcM2 : pairingDb.filter
      (fun r => r.student_id == "M2" && r.course_id == "C1") =
      [⟨"M2", "C1", 80, 100⟩] := by
    simp [pairingDb]
  have hment : potential_mentors pairingStudents pairingDb "C1" =
      [("M1", 90), ("M2", 80)] := by
    unfold potential_mentors
    rw [pairingStudents.eq_def]
    rw [List.filterMap]
    norm_num [hcW, hcM1, hcM2, havgW, havgM1, havgM2, sortByAvgDesc,
      insertByAvgDesc, List.filterMap]
  have hrun : generate_mentor_pairings_run pairingStudents pairingDb [] =
      [⟨"C1", "W", "M1", 90⟩, ⟨"C1", "W", "M2", 85⟩,
       ⟨"C1", "W", "M1", 100⟩, ⟨"C1", "W", "M2", 95⟩] := by
    unfold generate_mentor_pairings_run
    rw [hws]
    norm_num [hgroups, hment, List.foldl, compatibility_score, min_def,
      max_def, Pairing.mk.injEq]
  refine ⟨hrun, ?_⟩
  rw [hrun]
  norm_num [pairingsCount]

end CandidateAnalyzer
